import Mathlib

/-!
Verification of the user management system's CRUD orchestration layer
(`ums/crud.py`, `ums/database.py`, `ums/models.py`, `ums/schemas.py`).

The store is modelled as a list of user rows (`DB`); the SQLAlchemy session
operations `save`, `delete` and the CRUD methods of `UserCrud` become pure
functions over that list.  Timestamps are naturals; UUID values are naturals
(the 128-bit integer held by `uuid.UUID`).  The bcrypt hasher
(`database.hash_password`, backed by the external passlib library) is kept
abstract: operations take a `hash : String → String` parameter, and theorems
assume only what the spec's Hasher contract (§4.2) guarantees — a fixed
60-character digest, never equal to its input.
-/

namespace Ums

/-- Outcomes of a failed Directory operation.  The first four mirror the
`HTTPException`s raised in `ums/crud.py` (status 400 for an invalid id,
404 `not found`, 409 `user already exists`, 500 from the unreachable
dispatch branch of `__get_user`); `integrityError` is a store-level
`sqlalchemy.exc.IntegrityError` escaping uncaught. -/
inductive Err where
  | invalidIdentifier
  | notFound
  | conflict
  | internalError
  | integrityError
deriving DecidableEq

/-- One row of the `users` table (`ums/models.py`, `class User`): the
`BaseModel` columns `id` (UUID primary key as the 128-bit integer value),
`created_at`, `updated_at` (timestamps as naturals) plus `username`,
`password` (the stored value, normally a hash) and `is_active`. -/
structure User where
  id : Nat
  username : String
  password : String
  is_active : Bool
  created_at : Nat
  updated_at : Nat
deriving DecidableEq

/-- The users table: the rows in insertion order. -/
abbrev DB := List User

/-! ### The identifier parser

`UserCrud.get_by_id` validates the incoming string with `uuid.UUID(user_id)`.
`uuid` is the Python standard library, not part of this repository, so the
following definitions are modelled from the spec: the identifier "must parse
as a valid unique-identifier literal" (§4.1), which we render as CPython's
main acceptance path for `UUID(hex)` — remove every occurrence of `urn:` and
of `uuid:`, strip curly braces from both ends, remove hyphens, and require
exactly 32 hexadecimal digits, whose value is the UUID's integer. -/

/-- True for the two curly-brace characters (code points 123 and 125),
which `uuid.UUID` strips from both ends of its input. -/
def isBrace (c : Char) : Bool := c.toNat = 123 || c.toNat = 125

/-- Hexadecimal digit test, as accepted by `int(s, 16)`. -/
def isHexDigit (c : Char) : Bool :=
  c.isDigit || ('a' ≤ c && c ≤ 'f') || ('A' ≤ c && c ≤ 'F')

/-- Value of one hexadecimal digit. -/
def hexDigitVal (c : Char) : Nat :=
  if c.isDigit then c.toNat - 48
  else if 'a' ≤ c && c ≤ 'f' then c.toNat - 87
  else c.toNat - 55

/-- Whether `p` is a prefix of `xs` (character lists). -/
def listStartsWith : List Char → List Char → Bool
  | [], _ => true
  | _ :: _, [] => false
  | p :: ps, x :: xs => p = x && listStartsWith ps xs

/-- Fuel-driven worker for `removeAll`; the fuel bounds the number of
characters still to be examined. -/
def removeAllAux (pat : List Char) : Nat → List Char → List Char
  | 0, xs => xs
  | _ + 1, [] => []
  | fuel + 1, x :: xs =>
      if listStartsWith pat (x :: xs) then
        removeAllAux pat fuel ((x :: xs).drop pat.length)
      else
        x :: removeAllAux pat fuel xs

/-- Python's `s.replace(pat, "")`: delete every non-overlapping occurrence
of `pat`, scanning left to right. -/
def removeAll (pat xs : List Char) : List Char :=
  removeAllAux pat (xs.length + 1) xs

/-- Python's `s.strip("\x7b\x7d")`: drop leading and trailing braces. -/
def stripBraces (xs : List Char) : List Char :=
  ((xs.dropWhile isBrace).reverse.dropWhile isBrace).reverse

/-- Integer value of a list of hexadecimal digits. -/
def hexValue (xs : List Char) : Nat :=
  xs.foldl (fun acc c => 16 * acc + hexDigitVal c) 0

/-- Modelled from the spec: CPython's `uuid.UUID(hex=s)` constructor (the
standard library is outside `src/`).  Returns the UUID's integer value, or
`none` exactly when the constructor raises `ValueError` — after removing
`urn:` and `uuid:`, stripping braces, and dropping hyphens, the remainder
must be 32 hex digits. -/
def parseUUID (s : String) : Option Nat :=
  let t := removeAll "uuid:".data (removeAll "urn:".data s.data)
  let t := (stripBraces t).filter (fun c => c.toNat ≠ 45)
  if t.length = 32 && t.all isHexDigit then some (hexValue t) else none

/-! ### Schema-boundary validation (`ums/schemas.py`, `ums/config.py`)

These predicates describe the payloads FastAPI lets through to the
Directory; `UserCrud` itself performs no field validation. -/

/-- `settings.minimum_password_length` (`ums/config.py`, default 8). -/
def minimum_password_length : Nat := 8

/-- `settings.maximum_password_length` (`ums/config.py`, default 15). -/
def maximum_password_length : Nat := 15

/-- Python's `str.isnumeric`, used by `UserBase.username_must_not_be_numeric`:
non-empty and every character numeric.  Modelled over the ASCII decimal
digits (the full Unicode numeric classification is out of scope). -/
def isnumeric (s : String) : Bool :=
  s.data ≠ [] && s.data.all Char.isDigit

/-- A `(username, password)` pair accepted by `schemas.UserCreate`:
username 3–15 characters and not purely numeric, password within the
configured length bounds. -/
def validUserCreate (username password : String) : Prop :=
  3 ≤ username.length ∧ username.length ≤ 15 ∧ isnumeric username = false ∧
  minimum_password_length ≤ password.length ∧
  password.length ≤ maximum_password_length

/-- The dictionary `schema.model_dump(exclude_unset=True)` computed in
`UserCrud.update` from a `schemas.UserUpdate` payload: each key is present
exactly when the caller supplied it.  (Through the HTTP schema `username`
is always present and `password` optional; the Directory code handles any
subset, so both fields are optional here.) -/
structure UserUpdateDump where
  username : Option String
  password : Option String
deriving DecidableEq

/-! ### The store primitives (`ums/database.py`, `ums/models.py`) -/

/-- `database.save` on a *new* instance (the create path):
`models.User(**schema.model_dump())` builds a row whose `id` comes from the
`uuid4` column default (modelled by the `freshId` parameter), `is_active`
from its column default `True`; `save` hashes the non-null `password`
attribute, then `add`/`commit` runs the INSERT — the server defaults stamp
`created_at` and `updated_at` with the current time `now`, and the unique
constraints on `id` and `username` reject the row with `IntegrityError` on
collision (transaction rolled back, table unchanged).  `newUser` is the row
as committed: hashed password, `is_active` default true, both timestamps at
`now`. -/
def newUser (hash : String → String) (freshId now : Nat)
    (username password : String) : User :=
  { id := freshId, username := username, password := hash password,
    is_active := true, created_at := now, updated_at := now }

/-- The INSERT itself: constraint check, then commit of the `newUser` row. -/
def save_new (db : DB) (hash : String → String) (freshId now : Nat)
    (username password : String) : Except Err (User × DB) :=
  if db.any (fun v => v.id == freshId || v.username == username) then
    .error .integrityError
  else
    .ok (newUser hash freshId now username password,
         db ++ [newUser hash freshId now username password])

/-- `database.save` on a *persistent* instance (the update path): the
instance's `password` attribute is never `None` (the column is non-null),
so `save` unconditionally re-hashes whatever value it currently holds;
`commit` then runs the UPDATE.  The `onupdate` argument of the
`updated_at` column in `ums/models.py` is `datetime.now(timezone.utc)` —
a value computed once at class-definition time, not a callable — so the
UPDATE stamps `updated_at` with that module-import-time constant,
`importTime`.  A username collision with a *different* row raises
`IntegrityError` and rolls back (table unchanged). -/
def save_existing (db : DB) (hash : String → String) (importTime : Nat)
    (u : User) : Except Err (User × DB) :=
  if db.any (fun v => !(v.id == u.id) && v.username == u.username) then
    .error .integrityError
  else
    let committed : User := { u with password := hash u.password,
                                     updated_at := importTime }
    .ok (committed, db.map (fun v => if v.id == u.id then committed else v))

/-- `database.delete`: `session.delete(instance)` + `commit` removes the
row with the instance's primary key. -/
def db_delete (db : DB) (u : User) : DB :=
  db.filter (fun v => !(v.id == u.id))

/-- `BaseModel.update`'s `setattr` loop: overwrite exactly the attributes
present in the keyword dictionary. -/
def setFields (u : User) (kw : UserUpdateDump) : User :=
  { u with
    username := kw.username.getD u.username,
    password := kw.password.getD u.password }

namespace UserCrud

/-- `UserCrud.get_by_id`: validate the identifier with `uuid.UUID` (raising
the 400 error on `ValueError`) *before* touching the store, then
`db.get(User, user_id)` — a primary-key lookup on the parsed UUID value —
and the 404 error when no row matches. -/
def get_by_id (db : DB) (user_id : String) : Except Err User :=
  match parseUUID user_id with
  | none => .error .invalidIdentifier
  | some n =>
    match db.find? (fun u => u.id == n) with
    | some u => .ok u
    | none => .error .notFound

/-- `UserCrud.get_by_username`: `query.filter_by(username=...).first()`,
404 when absent. -/
def get_by_username (db : DB) (username : String) : Except Err User :=
  match db.find? (fun u => u.username == username) with
  | some u => .ok u
  | none => .error .notFound

/-- `UserCrud.get_all`: `limit = min(limit, 100)` then
`query.offset(skip).limit(limit)`. -/
def get_all (db : DB) (skip limit : Nat) : List User :=
  (db.drop skip).take (min limit 100)

/-- `UserCrud.__get_user`: the `match by:` dispatch on the mode string,
with the 500 internal error on any other string. -/
def get_user (db : DB) (mode user_id : String) : Except Err User :=
  match mode with
  | "id" => get_by_id db user_id
  | "username" => get_by_username db user_id
  | _ => .error .internalError

/-- `UserCrud.create`: `User(**schema.model_dump()).save(db=db)`, with
`except IntegrityError` translated to the 409 conflict.  The pair returned
is (outcome, table after the call). -/
def create (db : DB) (hash : String → String) (freshId now : Nat)
    (username password : String) : Except Err User × DB :=
  match save_new db hash freshId now username password with
  | .error .integrityError => (.error .conflict, db)
  | .error e => (.error e, db)
  | .ok (u, db') => (.ok u, db')

/-- `UserCrud.update`: resolve via `__get_user`, then
`user.update(**schema.model_dump(exclude_unset=True), db=db)` — the
`setattr` loop followed by `save`.  No exception handler: a store-level
`IntegrityError` propagates to the caller untranslated. -/
def update (db : DB) (hash : String → String) (importTime : Nat)
    (mode user_id : String) (kw : UserUpdateDump) : Except Err User × DB :=
  match get_user db mode user_id with
  | .error e => (.error e, db)
  | .ok user =>
    match save_existing db hash importTime (setFields user kw) with
    | .error e => (.error e, db)
    | .ok (u, db') => (.ok u, db')

/-- `UserCrud.delete`: resolve via `__get_user`, then `user.delete(db=db)`
(a hard delete; the method returns `None`). -/
def delete (db : DB) (mode user_id : String) : Except Err Unit × DB :=
  match get_user db mode user_id with
  | .error e => (.error e, db)
  | .ok user => (.ok (), db_delete db user)

end UserCrud

/-! ### Concrete instances for witnesses and counterexample traces -/

/-- A fixed 60-character string standing for one bcrypt digest. -/
def digestA : String := String.mk (List.replicate 60 'a')

/-- A second, distinct 60-character digest. -/
def digestB : String := String.mk (List.replicate 60 'b')

/-- A concrete hasher satisfying the spec's Hasher contract (§4.2) for use
in witnesses: every output is a 60-character digest and no input is its own
digest. -/
def modelHash (s : String) : String :=
  if s = digestA then digestB else digestA

/-- A stored user row whose `password` field holds the digest `digestA`,
created at time 5. -/
def storedJdoe : User :=
  { id := 1, username := "jdoe", password := digestA,
    is_active := true, created_at := 5, updated_at := 5 }

/-- Fixture row `alice`. -/
def aliceRow : User :=
  { id := 1, username := "alice", password := digestA,
    is_active := true, created_at := 3, updated_at := 3 }

/-- Fixture row `bob`. -/
def bobRow : User :=
  { id := 2, username := "bob", password := digestA,
    is_active := true, created_at := 4, updated_at := 4 }

/-- The table produced by one successful `create` (at server time 5, with
the module imported at time 0). -/
def createdDb : DB := (UserCrud.create [] modelHash 1 5 "jdoe" "password123").2

/-- The store states reachable from the empty table through successful
Directory operations, with the module-import-time constant `importTime`
fixed for the process.  Each mutating call may use its own hasher function
(bcrypt draws a fresh salt per call), constrained only by the spec's Hasher
contract of a fixed 60-character digest.  Failed operations leave the table
unchanged, so they add no states. -/
inductive Reachable (importTime : Nat) : DB → Prop where
  | empty : Reachable importTime []
  | created (db : DB) (hash : String → String) (freshId now : Nat)
      (username password : String) (u : User) (db' : DB) :
      (∀ x, (hash x).length = 60) →
      Reachable importTime db →
      UserCrud.create db hash freshId now username password = (.ok u, db') →
      Reachable importTime db'
  | updated (db : DB) (hash : String → String) (mode s : String)
      (kw : UserUpdateDump) (u : User) (db' : DB) :
      (∀ x, (hash x).length = 60) →
      Reachable importTime db →
      UserCrud.update db hash importTime mode s kw = (.ok u, db') →
      Reachable importTime db'
  | deleted (db : DB) (mode s : String) (db' : DB) :
      Reachable importTime db →
      UserCrud.delete db mode s = (.ok (), db') →
      Reachable importTime db'

/-! ### Helper lemmas -/

theorem modelHash_length : ∀ s, (modelHash s).length = 60 := by
  intro s
  by_cases h : s = digestA
  · rw [modelHash, if_pos h]; decide
  · rw [modelHash, if_neg h]; decide

theorem modelHash_ne : ∀ s, modelHash s ≠ s := by
  intro s
  by_cases h : s = digestA
  · rw [modelHash, if_pos h, h]; decide
  · rw [modelHash, if_neg h]
    intro hc; exact h hc.symm

theorem pair_ok_inj {α β ε : Type} {a b : α} {x y : β} {p : Except ε α × β}
    (h : p = (.ok a, x)) (h' : p = (.ok b, y)) : a = b ∧ x = y := by
  rw [h] at h'
  have h1 := congrArg Prod.fst h'
  have h2 := congrArg Prod.snd h'
  exact ⟨Except.ok.inj h1, h2⟩

theorem save_new_ok {db : DB} {hash : String → String} {freshId now : Nat}
    {username password : String} {u : User} {db' : DB}
    (h : save_new db hash freshId now username password = .ok (u, db')) :
    u = newUser hash freshId now username password ∧ db' = db ++ [u] := by
  by_cases hc : db.any (fun v => v.id == freshId || v.username == username) = true
  · rw [save_new, if_pos hc] at h
    exact absurd h (by simp)
  · rw [save_new, if_neg hc] at h
    have h' := Except.ok.inj h
    have h1 := congrArg Prod.fst h'
    have h2 := congrArg Prod.snd h'
    subst h1; subst h2
    exact ⟨rfl, rfl⟩

theorem save_existing_ok {db : DB} {hash : String → String} {t0 : Nat}
    {u u' : User} {db' : DB}
    (h : save_existing db hash t0 u = .ok (u', db')) :
    u'.password = hash u.password ∧ u'.updated_at = t0
    ∧ db' = db.map (fun v => if v.id == u.id then u' else v) := by
  by_cases hc : db.any (fun v => !(v.id == u.id) && v.username == u.username) = true
  · rw [save_existing, if_pos hc] at h
    exact absurd h (by simp)
  · rw [save_existing, if_neg hc] at h
    have h' := Except.ok.inj h
    have h1 := congrArg Prod.fst h'
    have h2 := congrArg Prod.snd h'
    subst h1; subst h2
    exact ⟨rfl, rfl, rfl⟩

theorem save_existing_error {db : DB} {hash : String → String} {t0 : Nat}
    {u : User} {e : Err}
    (h : save_existing db hash t0 u = .error e) : e = .integrityError := by
  by_cases hc : db.any (fun v => !(v.id == u.id) && v.username == u.username) = true
  · rw [save_existing, if_pos hc] at h
    exact (Except.error.inj h).symm
  · rw [save_existing, if_neg hc] at h
    exact absurd h (by simp)

theorem create_ok {db : DB} {hash : String → String} {freshId now : Nat}
    {username password : String} {u : User} {db' : DB}
    (h : UserCrud.create db hash freshId now username password = (.ok u, db')) :
    save_new db hash freshId now username password = .ok (u, db') := by
  cases hs : save_new db hash freshId now username password with
  | error e =>
    have hfst := congrArg Prod.fst h
    cases e <;> simp [UserCrud.create, hs] at hfst
  | ok p =>
    obtain ⟨pu, pdb⟩ := p
    have heq : UserCrud.create db hash freshId now username password = (.ok pu, pdb) := by
      simp [UserCrud.create, hs]
    obtain ⟨rfl, rfl⟩ := pair_ok_inj heq h
    exact rfl

theorem update_ok {db : DB} {hash : String → String} {t0 : Nat}
    {mode s : String} {kw : UserUpdateDump} {u : User} {db' : DB}
    (h : UserCrud.update db hash t0 mode s kw = (.ok u, db')) :
    ∃ target, UserCrud.get_user db mode s = .ok target
      ∧ save_existing db hash t0 (setFields target kw) = .ok (u, db') := by
  cases hg : UserCrud.get_user db mode s with
  | error e =>
    have heq : UserCrud.update db hash t0 mode s kw = (.error e, db) := by
      simp [UserCrud.update, hg]
    rw [heq] at h
    exact absurd (congrArg Prod.fst h) (by simp)
  | ok target =>
    cases hs : save_existing db hash t0 (setFields target kw) with
    | error e =>
      have heq : UserCrud.update db hash t0 mode s kw = (.error e, db) := by
        simp [UserCrud.update, hg, hs]
      rw [heq] at h
      exact absurd (congrArg Prod.fst h) (by simp)
    | ok p =>
      obtain ⟨pu, pdb⟩ := p
      have heq : UserCrud.update db hash t0 mode s kw = (.ok pu, pdb) := by
        simp [UserCrud.update, hg, hs]
      obtain ⟨rfl, rfl⟩ := pair_ok_inj heq h
      exact ⟨target, rfl, hs⟩

theorem delete_ok {db : DB} {mode s : String} {db' : DB}
    (h : UserCrud.delete db mode s = (.ok (), db')) :
    ∃ target, UserCrud.get_user db mode s = .ok target ∧ db' = db_delete db target := by
  cases hg : UserCrud.get_user db mode s with
  | error e =>
    have heq : UserCrud.delete db mode s = (.error e, db) := by
      simp [UserCrud.delete, hg]
    rw [heq] at h
    exact absurd (congrArg Prod.fst h) (by simp)
  | ok target =>
    have heq : UserCrud.delete db mode s = (.ok (), db_delete db target) := by
      simp [UserCrud.delete, hg]
    rw [heq] at h
    exact ⟨target, rfl, (congrArg Prod.snd h).symm⟩

/-! ### The claims -/

/-- C1: the claim states that an update supplying only a new username leaves
the stored password hash unchanged.  The code contradicts it: `database.save`
re-hashes `model_instance.password` whenever it is non-null, so a
username-only update replaces the stored digest `digestA` by a fresh digest
of that digest.  Concretely, updating `storedJdoe` with payload
`{username: "jdoe2"}` (password omitted) succeeds but changes the stored
`password` field. -/
theorem username_only_update_rehashes_stored_password :
    ∃ u : User,
      (UserCrud.update [storedJdoe] modelHash 0 "username" "jdoe"
          ⟨some "jdoe2", none⟩).1 = .ok u
      ∧ u.username = "jdoe2"
      ∧ u.password = modelHash storedJdoe.password
      ∧ u.password ≠ storedJdoe.password := by
  refine ⟨{ id := 1, username := "jdoe2", password := digestB,
            is_active := true, created_at := 5, updated_at := 0 },
          rfl, rfl, rfl, ?_⟩
  show digestB ≠ digestA
  decide

/-- C2: the claim states that every successful update re-stamps `updated_at`
to a value `≥` the prior `updated_at`, keeping `updated_at ≥ created_at`.
The code contradicts it: the `onupdate` argument of the `updated_at` column
is `datetime.now(timezone.utc)` evaluated once at class-definition time, so
every UPDATE stamps the *module-import-time constant*.  With import time 0,
a user created at server time 5 carries `created_at = updated_at = 5`; a
subsequent successful update rewinds `updated_at` to 0, below both the
prior `updated_at` and `created_at`. -/
theorem update_stamps_import_time_constant :
    (∀ v ∈ createdDb, v.created_at = 5 ∧ v.updated_at = 5)
    ∧ ∃ u : User,
        (UserCrud.update createdDb modelHash 0 "username" "jdoe"
            ⟨some "jdoe", none⟩).1 = .ok u
        ∧ u.created_at = 5 ∧ u.updated_at = 0
        ∧ u.updated_at < u.created_at := by
  refine ⟨by decide,
          ⟨{ id := 1, username := "jdoe", password := digestB,
             is_active := true, created_at := 5, updated_at := 0 },
           rfl, rfl, rfl, by decide⟩⟩

/-- C3: the claim states that a uniqueness violation on a username-changing
update is caught at the Directory boundary and translated to `Conflict`,
with the store-level signal never propagating past the Directory.  The code
contradicts it for `update`: only `UserCrud.create` has an
`except IntegrityError` handler; `UserCrud.update` has none, so renaming
`bob` to the existing username `alice` lets the store's `IntegrityError`
escape the Directory untranslated (an unhandled exception, HTTP 500) instead
of producing the 409 conflict. -/
theorem update_username_collision_leaks_integrity_error :
    UserCrud.update [aliceRow, bobRow] modelHash 0 "username" "bob"
        ⟨some "alice", none⟩ = (.error .integrityError, [aliceRow, bobRow])
    ∧ (UserCrud.update [aliceRow, bobRow] modelHash 0 "username" "bob"
        ⟨some "alice", none⟩).1 ≠ .error .conflict := by
  refine ⟨rfl, ?_⟩
  intro hcontra
  exact absurd (Except.error.inj hcontra) (by decide)

/-- C4: for every user already stored under a username, a create call with
that same username — any password — hits the store's unique constraint on
INSERT (`save_new` signals `IntegrityError`; there is no pre-check), which
`UserCrud.create` translates to the 409 conflict, and the table is returned
unchanged. -/
theorem create_duplicate_username_conflict
    (db : DB) (hash : String → String) (freshId now : Nat)
    (username password : String) (u : User)
    (hu : u ∈ db) (hname : u.username = username) :
    save_new db hash freshId now username password = .error .integrityError
    ∧ UserCrud.create db hash freshId now username password
        = (.error .conflict, db) := by
  have hany : db.any (fun v => v.id == freshId || v.username == username) = true :=
    List.any_eq_true.mpr ⟨u, hu, by simp [hname]⟩
  have h1 : save_new db hash freshId now username password
      = .error .integrityError := by
    rw [save_new, if_pos hany]
  exact ⟨h1, by simp [UserCrud.create, h1]⟩

/-- C4 witness: `alice` is stored; creating `alice` again with a different
password yields the conflict and leaves the table as it was. -/
theorem create_duplicate_username_conflict_witness :
    aliceRow ∈ [aliceRow, bobRow] ∧ aliceRow.username = "alice"
    ∧ save_new [aliceRow, bobRow] modelHash 3 7 "alice" "password999"
        = .error .integrityError
    ∧ UserCrud.create [aliceRow, bobRow] modelHash 3 7 "alice" "password999"
        = (.error .conflict, [aliceRow, bobRow]) := by
  refine ⟨by decide, rfl, ?_⟩
  exact create_duplicate_username_conflict [aliceRow, bobRow] modelHash 3 7
    "alice" "password999" aliceRow (by decide) rfl

/-- C5: `get_all` returns at most `min limit 100` rows — in particular at
most 100 for any requested `limit > 100` — the rows being exactly the slice
of the table starting at offset `skip`, and the empty table yields the
empty sequence rather than an error. -/
theorem get_all_clamps_limit (db : DB) (skip limit : Nat) :
    (UserCrud.get_all db skip limit).length ≤ min limit 100
    ∧ (100 < limit → (UserCrud.get_all db skip limit).length ≤ 100)
    ∧ (∀ i : Nat, (UserCrud.get_all db skip limit)[i]? =
        if i < min limit 100 then db[skip + i]? else none)
    ∧ UserCrud.get_all ([] : DB) skip limit = [] := by
  have hlen : (UserCrud.get_all db skip limit).length ≤ min limit 100 := by
    rw [UserCrud.get_all]
    exact List.length_take_le _ _
  refine ⟨hlen, fun h => le_trans hlen (by omega), ?_, ?_⟩
  · intro i
    rw [UserCrud.get_all, List.getElem?_take, List.getElem?_drop]
  · rw [UserCrud.get_all]
    simp

/-- C5 witness: a two-row table listed with `skip = 1` and a requested
limit of 200. -/
theorem get_all_clamps_limit_witness :
    (UserCrud.get_all [aliceRow, bobRow] 1 200).length ≤ min 200 100
    ∧ (100 < 200 → (UserCrud.get_all [aliceRow, bobRow] 1 200).length ≤ 100)
    ∧ (∀ i : Nat, (UserCrud.get_all [aliceRow, bobRow] 1 200)[i]? =
        if i < min 200 100 then [aliceRow, bobRow][1 + i]? else none)
    ∧ UserCrud.get_all ([] : DB) 1 200 = [] :=
  get_all_clamps_limit [aliceRow, bobRow] 1 200

/-- C6: in id-mode, identifier-format validation runs before any store
access: a string rejected by the identifier parser makes `get_by_id`, and
`update`/`delete` in id-mode, fail with the 400 invalid-identifier error
for *every* payload (valid or not), the table unchanged; a string the
parser accepts whose value matches no stored row fails with the 404
not-found error. -/
theorem id_mode_validation_order
    (db : DB) (hash : String → String) (importTime : Nat) (s : String)
    (kw : UserUpdateDump) :
    (parseUUID s = none →
        UserCrud.get_by_id db s = .error .invalidIdentifier
      ∧ UserCrud.update db hash importTime "id" s kw
          = (.error .invalidIdentifier, db)
      ∧ UserCrud.delete db "id" s = (.error .invalidIdentifier, db))
    ∧ (∀ n, parseUUID s = some n → (∀ u ∈ db, u.id ≠ n) →
        UserCrud.get_by_id db s = .error .notFound
      ∧ UserCrud.update db hash importTime "id" s kw = (.error .notFound, db)
      ∧ UserCrud.delete db "id" s = (.error .notFound, db)) := by
  have hgu : UserCrud.get_user db "id" s = UserCrud.get_by_id db s := rfl
  constructor
  · intro h
    have hg : UserCrud.get_by_id db s = .error .invalidIdentifier := by
      simp [UserCrud.get_by_id, h]
    exact ⟨hg, by simp [UserCrud.update, hgu, hg],
           by simp [UserCrud.delete, hgu, hg]⟩
  · intro n hn hne
    have hf : db.find? (fun u => u.id == n) = none :=
      List.find?_eq_none.mpr (fun x hx => by simp [hne x hx])
    have hg : UserCrud.get_by_id db s = .error .notFound := by
      simp [UserCrud.get_by_id, hn, hf]
    exact ⟨hg, by simp [UserCrud.update, hgu, hg],
           by simp [UserCrud.delete, hgu, hg]⟩

/-- C6 witness: `"not-a-uuid"` is rejected before any lookup even though the
accompanying payload (username `"x"`, too short for the schema) is itself
invalid; the well-formed 32-digit identifier with value 153 matches no row
of the single-row table and yields the 404 outcome. -/
theorem id_mode_validation_order_witness :
    (parseUUID "not-a-uuid" = none
      ∧ UserCrud.get_by_id [aliceRow] "not-a-uuid" = .error .invalidIdentifier
      ∧ UserCrud.update [aliceRow] modelHash 0 "id" "not-a-uuid"
          ⟨some "x", none⟩ = (.error .invalidIdentifier, [aliceRow])
      ∧ UserCrud.delete [aliceRow] "id" "not-a-uuid"
          = (.error .invalidIdentifier, [aliceRow]))
    ∧ (parseUUID "00000000000000000000000000000099" = some 153
      ∧ (∀ u ∈ [aliceRow], u.id ≠ 153)
      ∧ UserCrud.get_by_id [aliceRow] "00000000000000000000000000000099"
          = .error .notFound
      ∧ UserCrud.update [aliceRow] modelHash 0 "id"
          "00000000000000000000000000000099" ⟨some "x", none⟩
          = (.error .notFound, [aliceRow])
      ∧ UserCrud.delete [aliceRow] "id" "00000000000000000000000000000099"
          = (.error .notFound, [aliceRow])) := by
  constructor
  · exact ⟨by decide,
      (id_mode_validation_order [aliceRow] modelHash 0 "not-a-uuid"
        ⟨some "x", none⟩).1 (by decide)⟩
  · exact ⟨by decide, by decide,
      (id_mode_validation_order [aliceRow] modelHash 0
        "00000000000000000000000000000099" ⟨some "x", none⟩).2 153
        (by decide) (by decide)⟩

/-- C7: for every schema-valid `(username, password)` pair — in a store that
does not already hold the username, with the fresh `uuid4` id — `create`
succeeds, appending one row; `get_by_id` with any identifier string denoting
the returned id then yields that row, whose `username` equals the input,
whose `password` field (a 60-character digest, by the Hasher contract) is
not the submitted plaintext (at most 15 characters by the schema), and whose
`is_active` is true. -/
theorem create_then_get_by_id_ok
    (db : DB) (hash : String → String) (freshId now : Nat)
    (username password s : String)
    (hash_len : ∀ x, (hash x).length = 60)
    (hvalid : validUserCreate username password)
    (hname : ∀ u ∈ db, u.username ≠ username)
    (hid : ∀ u ∈ db, u.id ≠ freshId)
    (hs : parseUUID s = some freshId) :
    ∃ u : User,
      UserCrud.create db hash freshId now username password = (.ok u, db ++ [u])
      ∧ UserCrud.get_by_id (db ++ [u]) s = .ok u
      ∧ u.username = username ∧ u.password ≠ password ∧ u.is_active = true := by
  have hany : db.any (fun v => v.id == freshId || v.username == username)
      = false := by
    rw [List.any_eq_false]
    intro x hx
    simp [hname x hx, hid x hx]
  refine ⟨newUser hash freshId now username password, ?_, ?_, rfl, ?_, rfl⟩
  · have hsave : save_new db hash freshId now username password
        = .ok (newUser hash freshId now username password,
               db ++ [newUser hash freshId now username password]) := by
      rw [save_new, if_neg (by simp [hany])]
    simp [UserCrud.create, hsave]
  · have hf1 : db.find? (fun v => v.id == freshId) = none :=
      List.find?_eq_none.mpr (fun x hx => by simp [hid x hx])
    have hfind : (db ++ [newUser hash freshId now username password]).find?
            (fun v => v.id == freshId)
        = some (newUser hash freshId now username password) := by
      rw [List.find?_append, hf1]
      simp [newUser]
    simp [UserCrud.get_by_id, hs, hfind]
  · intro hcontra
    have hlen60 := hash_len password
    have hcontra2 : hash password = password := hcontra
    rw [hcontra2] at hlen60
    unfold validUserCreate at hvalid
    have hle : password.length ≤ maximum_password_length := hvalid.2.2.2.2
    rw [maximum_password_length] at hle
    omega

/-- C7 witness: creating `jdoe` with `password123` in the empty store and
reading it back through the 32-digit rendering of id 1. -/
theorem create_then_get_by_id_ok_witness :
    (∀ x, (modelHash x).length = 60)
    ∧ validUserCreate "jdoe" "password123"
    ∧ parseUUID "00000000000000000000000000000001" = some 1
    ∧ ∃ u : User,
        UserCrud.create [] modelHash 1 0 "jdoe" "password123"
          = (.ok u, [] ++ [u])
        ∧ UserCrud.get_by_id ([] ++ [u]) "00000000000000000000000000000001"
            = .ok u
        ∧ u.username = "jdoe" ∧ u.password ≠ "password123"
        ∧ u.is_active = true := by
  refine ⟨modelHash_length, by unfold validUserCreate; decide, by decide, ?_⟩
  exact create_then_get_by_id_ok [] modelHash 1 0 "jdoe" "password123"
    "00000000000000000000000000000001" modelHash_length
    (by unfold validUserCreate; decide) (by decide) (by decide) (by decide)

/-- C8: deleting a stored user (resolved in either mode) removes exactly
that row — every surviving row was already stored and carries a different
id, so the delete is hard, with no tombstone — after which `get_by_id` with
any rendering of the user's id and `get_by_username` with the former
username both fail with the 404 not-found error.  The username lookup needs
the store's username-uniqueness invariant, stated as `Nodup`. -/
theorem delete_then_lookups_not_found
    (db : DB) (mode s : String) (u : User)
    (hmode : mode = "id" ∨ mode = "username")
    (hnames : (db.map User.username).Nodup)
    (hres : UserCrud.get_user db mode s = .ok u) :
    UserCrud.delete db mode s = (.ok (), db_delete db u)
    ∧ (∀ t, parseUUID t = some u.id →
        UserCrud.get_by_id (db_delete db u) t = .error .notFound)
    ∧ UserCrud.get_by_username (db_delete db u) u.username = .error .notFound
    ∧ (∀ v ∈ db_delete db u, v ∈ db ∧ v.id ≠ u.id) := by
  have hu : u ∈ db := by
    cases hmode with
    | inl h =>
      subst h
      have hgu : UserCrud.get_user db "id" s = UserCrud.get_by_id db s := rfl
      rw [hgu] at hres
      cases hp : parseUUID s with
      | none =>
        have : UserCrud.get_by_id db s = .error .invalidIdentifier := by
          simp [UserCrud.get_by_id, hp]
        rw [this] at hres
        exact absurd hres (by simp)
      | some n =>
        cases hf : db.find? (fun v => v.id == n) with
        | none =>
          have : UserCrud.get_by_id db s = .error .notFound := by
            simp [UserCrud.get_by_id, hp, hf]
          rw [this] at hres
          exact absurd hres (by simp)
        | some w =>
          have : UserCrud.get_by_id db s = .ok w := by
            simp [UserCrud.get_by_id, hp, hf]
          rw [this] at hres
          exact (Except.ok.inj hres) ▸ List.mem_of_find?_eq_some hf
    | inr h =>
      subst h
      have hgu : UserCrud.get_user db "username" s
          = UserCrud.get_by_username db s := rfl
      rw [hgu] at hres
      cases hf : db.find? (fun v => v.username == s) with
      | none =>
        have : UserCrud.get_by_username db s = .error .notFound := by
          simp [UserCrud.get_by_username, hf]
        rw [this] at hres
        exact absurd hres (by simp)
      | some w =>
        have : UserCrud.get_by_username db s = .ok w := by
          simp [UserCrud.get_by_username, hf]
        rw [this] at hres
        exact (Except.ok.inj hres) ▸ List.mem_of_find?_eq_some hf
  refine ⟨by simp [UserCrud.delete, hres], ?_, ?_, ?_⟩
  · intro t ht
    have hf : (db_delete db u).find? (fun v => v.id == u.id) = none := by
      rw [List.find?_eq_none]
      intro x hx
      rw [db_delete] at hx
      have hx2 := (List.mem_filter.mp hx).2
      simp at hx2 ⊢
      exact hx2
    simp [UserCrud.get_by_id, ht, hf]
  · have hf2 : (db_delete db u).find? (fun v => v.username == u.username)
        = none := by
      rw [List.find?_eq_none]
      intro x hx
      rw [db_delete] at hx
      have hx1 := (List.mem_filter.mp hx).1
      have hx2 := (List.mem_filter.mp hx).2
      simp at hx2
      intro hcontra
      simp at hcontra
      exact hx2 (congrArg User.id
        (List.inj_on_of_nodup_map hnames hx1 hu hcontra))
    simp [UserCrud.get_by_username, hf2]
  · intro v hv
    rw [db_delete] at hv
    have hm := List.mem_filter.mp hv
    exact ⟨hm.1, by simpa using hm.2⟩

/-- C8 witness: deleting `alice` (by username) from a two-row store, then
looking her up by id rendering and by former username. -/
theorem delete_then_lookups_not_found_witness :
    (("username" : String) = "id" ∨ ("username" : String) = "username")
    ∧ ([aliceRow, bobRow].map User.username).Nodup
    ∧ UserCrud.get_user [aliceRow, bobRow] "username" "alice" = .ok aliceRow
    ∧ (UserCrud.delete [aliceRow, bobRow] "username" "alice"
        = (.ok (), db_delete [aliceRow, bobRow] aliceRow)
      ∧ (∀ t, parseUUID t = some aliceRow.id →
          UserCrud.get_by_id (db_delete [aliceRow, bobRow] aliceRow) t
            = .error .notFound)
      ∧ UserCrud.get_by_username (db_delete [aliceRow, bobRow] aliceRow)
          aliceRow.username = .error .notFound
      ∧ (∀ v ∈ db_delete [aliceRow, bobRow] aliceRow,
          v ∈ [aliceRow, bobRow] ∧ v.id ≠ aliceRow.id)) := by
  refine ⟨Or.inr rfl, by decide, rfl, ?_⟩
  exact delete_then_lookups_not_found [aliceRow, bobRow] "username" "alice"
    aliceRow (Or.inr rfl) (by decide) rfl

theorem get_by_id_error_cases {db : DB} {s : String} {e : Err}
    (h : UserCrud.get_by_id db s = .error e) :
    e = .invalidIdentifier ∨ e = .notFound := by
  cases hp : parseUUID s with
  | none =>
    have h2 : UserCrud.get_by_id db s = .error .invalidIdentifier := by
      simp [UserCrud.get_by_id, hp]
    rw [h2] at h
    exact Or.inl (Except.error.inj h).symm
  | some n =>
    cases hf : db.find? (fun v => v.id == n) with
    | none =>
      have h2 : UserCrud.get_by_id db s = .error .notFound := by
        simp [UserCrud.get_by_id, hp, hf]
      rw [h2] at h
      exact Or.inr (Except.error.inj h).symm
    | some w =>
      have h2 : UserCrud.get_by_id db s = .ok w := by
        simp [UserCrud.get_by_id, hp, hf]
      rw [h2] at h
      exact absurd h (by simp)

theorem get_by_username_error_cases {db : DB} {s : String} {e : Err}
    (h : UserCrud.get_by_username db s = .error e) : e = .notFound := by
  cases hf : db.find? (fun v => v.username == s) with
  | none =>
    have h2 : UserCrud.get_by_username db s = .error .notFound := by
      simp [UserCrud.get_by_username, hf]
    rw [h2] at h
    exact (Except.error.inj h).symm
  | some w =>
    have h2 : UserCrud.get_by_username db s = .ok w := by
      simp [UserCrud.get_by_username, hf]
    rw [h2] at h
    exact absurd h (by simp)

/-- C9: over every reachable store state, each stored row's `password` field
is a 60-character digest (every write path — `create`, and `update` whether
or not a new password was supplied — passes the value through the hasher
before committing), hence never equal to any client-submitted plaintext,
which the schema bounds at `maximum_password_length` (15) characters. -/
theorem stored_password_never_plaintext (importTime : Nat) (db : DB)
    (hreach : Reachable importTime db) :
    ∀ u ∈ db, u.password.length = 60
      ∧ ∀ plaintext : String,
          plaintext.length ≤ maximum_password_length →
          u.password ≠ plaintext := by
  have hlen : ∀ u ∈ db, u.password.length = 60 := by
    induction hreach with
    | empty => intro u hu; exact absurd hu (by simp)
    | created db0 hash freshId now un pw u0 db' hhash hr hstep ih =>
      obtain ⟨hu0, hdb⟩ := save_new_ok (create_ok hstep)
      subst hdb
      intro v hv
      rcases List.mem_append.mp hv with h | h
      · exact ih v h
      · have hvu : v = u0 := by simpa using h
        rw [hvu, hu0]
        exact hhash pw
    | updated db0 hash mode s kw u0 db' hhash hr hstep ih =>
      obtain ⟨target, hg, hsx⟩ := update_ok hstep
      obtain ⟨hpw, hup, hdb⟩ := save_existing_ok hsx
      subst hdb
      intro v hv
      obtain ⟨a, ha, rfl⟩ := List.mem_map.mp hv
      by_cases hc : (a.id == (setFields target kw).id) = true
      · rw [if_pos hc, hpw]
        exact hhash _
      · rw [if_neg hc]
        exact ih a ha
    | deleted db0 mode s db' hr hstep ih =>
      obtain ⟨target, hg, hdb⟩ := delete_ok hstep
      subst hdb
      intro v hv
      rw [db_delete] at hv
      exact ih v (List.mem_filter.mp hv).1
  intro u hu
  refine ⟨hlen u hu, ?_⟩
  intro p hp hcontra
  have h60 := hlen u hu
  rw [hcontra] at h60
  rw [maximum_password_length] at hp
  omega

/-- C9 witness: the store reached by one `create` from the empty table; its
single row's password is a digest, unequal to (for instance) the very
plaintext that was submitted. -/
theorem stored_password_never_plaintext_witness :
    Reachable 0 createdDb
    ∧ (∀ u ∈ createdDb, u.password.length = 60
        ∧ ∀ plaintext : String,
            plaintext.length ≤ maximum_password_length →
            u.password ≠ plaintext) := by
  have hr : Reachable 0 createdDb :=
    Reachable.created [] modelHash 1 5 "jdoe" "password123"
      (newUser modelHash 1 5 "jdoe" "password123") createdDb
      modelHash_length Reachable.empty rfl
  exact ⟨hr, stored_password_never_plaintext 0 createdDb hr⟩

/-- C10: with the mode strings the route handlers actually pass (`"id"` and
`"username"`), the default branch of `__get_user` is unreachable: `update`
can only fail with the invalid-identifier error, not-found, or the
store-level integrity error it leaks, and `delete` only with
invalid-identifier or not-found — neither ever yields the 500 internal
dispatch error. -/
theorem dispatch_internal_error_unreachable
    (db : DB) (hash : String → String) (importTime : Nat)
    (mode s : String) (kw : UserUpdateDump)
    (hmode : mode = "id" ∨ mode = "username") :
    (∀ e, (UserCrud.update db hash importTime mode s kw).1 = .error e →
        e = .invalidIdentifier ∨ e = .notFound ∨ e = .integrityError)
    ∧ (∀ e, (UserCrud.delete db mode s).1 = .error e →
        e = .invalidIdentifier ∨ e = .notFound)
    ∧ (UserCrud.update db hash importTime mode s kw).1
        ≠ .error .internalError
    ∧ (UserCrud.delete db mode s).1 ≠ .error .internalError := by
  have hgu : ∀ e, UserCrud.get_user db mode s = .error e →
      e = .invalidIdentifier ∨ e = .notFound := by
    intro e he
    cases hmode with
    | inl h =>
      subst h
      have hq : UserCrud.get_user db "id" s = UserCrud.get_by_id db s := rfl
      rw [hq] at he
      exact get_by_id_error_cases he
    | inr h =>
      subst h
      have hq : UserCrud.get_user db "username" s
          = UserCrud.get_by_username db s := rfl
      rw [hq] at he
      exact Or.inr (get_by_username_error_cases he)
  have hupd : ∀ e, (UserCrud.update db hash importTime mode s kw).1
      = .error e →
      e = .invalidIdentifier ∨ e = .notFound ∨ e = .integrityError := by
    intro e he
    cases hg : UserCrud.get_user db mode s with
    | error e2 =>
      have heq : UserCrud.update db hash importTime mode s kw
          = (.error e2, db) := by simp [UserCrud.update, hg]
      rw [heq] at he
      have heinj : e2 = e := Except.error.inj he
      rcases hgu e2 hg with h | h
      · exact Or.inl (heinj.symm.trans h)
      · exact Or.inr (Or.inl (heinj.symm.trans h))
    | ok target =>
      cases hs : save_existing db hash importTime (setFields target kw) with
      | error e2 =>
        have heq : UserCrud.update db hash importTime mode s kw
            = (.error e2, db) := by simp [UserCrud.update, hg, hs]
        rw [heq] at he
        have heinj : e2 = e := Except.error.inj he
        exact Or.inr (Or.inr (heinj.symm.trans (save_existing_error hs)))
      | ok p =>
        obtain ⟨pu, pdb⟩ := p
        have heq : UserCrud.update db hash importTime mode s kw
            = (.ok pu, pdb) := by simp [UserCrud.update, hg, hs]
        rw [heq] at he
        exact absurd he (by simp)
  have hdel : ∀ e, (UserCrud.delete db mode s).1 = .error e →
      e = .invalidIdentifier ∨ e = .notFound := by
    intro e he
    cases hg : UserCrud.get_user db mode s with
    | error e2 =>
      have heq : UserCrud.delete db mode s = (.error e2, db) := by
        simp [UserCrud.delete, hg]
      rw [heq] at he
      have heinj : e2 = e := Except.error.inj he
      rcases hgu e2 hg with h | h
      · exact Or.inl (heinj.symm.trans h)
      · exact Or.inr (heinj.symm.trans h)
    | ok target =>
      have heq : UserCrud.delete db mode s
          = (.ok (), db_delete db target) := by simp [UserCrud.delete, hg]
      rw [heq] at he
      exact absurd he (by simp)
  refine ⟨hupd, hdel, ?_, ?_⟩
  · intro hcontra
    rcases hupd .internalError hcontra with h | h | h <;>
      exact absurd h (by decide)
  · intro hcontra
    rcases hdel .internalError hcontra with h | h <;>
      exact absurd h (by decide)

/-- C10 witness: both route-supplied modes, on a store and identifier where
the operations do fail — the outcome is never the internal dispatch
error. -/
theorem dispatch_internal_error_unreachable_witness :
    (("id" : String) = "id" ∨ ("id" : String) = "username")
    ∧ ((∀ e, (UserCrud.update [] modelHash 0 "id" "zz" ⟨none, none⟩).1
          = .error e →
          e = .invalidIdentifier ∨ e = .notFound ∨ e = .integrityError)
      ∧ (∀ e, (UserCrud.delete [] "id" "zz").1 = .error e →
          e = .invalidIdentifier ∨ e = .notFound)
      ∧ (UserCrud.update [] modelHash 0 "id" "zz" ⟨none, none⟩).1
          ≠ .error .internalError
      ∧ (UserCrud.delete [] "id" "zz").1 ≠ .error .internalError) :=
  ⟨Or.inl rfl, dispatch_internal_error_unreachable [] modelHash 0 "id" "zz"
    ⟨none, none⟩ (Or.inl rfl)⟩

end Ums
